import Mathlib

/-!
# Verification of the TravelDayCalc core (`travel_day_calc_v1_1.py`)

Shallow embedding of the scheduling/grouping core of the repository:
`calculate_gaps`, `weekends_in_gap`, and `apply_user_logic` (with its inner
helpers `get_period_info` and `requires_travel`).

Modelling conventions:
* Calendar dates are day numbers (`Int`); `timedelta(days = 1)` is `+ 1`,
  `(a - b).days` is `a - b`, and `pd.date_range s e` is the inclusive
  integer range `dateRange s e`.  Day number `0` stands for a Thursday
  (the Unix epoch), so the pandas weekday (Monday = 0) of day `d` is
  `(d + 3) % 7`.
* Python `str.lower()` is `strLower` (character-wise lowering).
* Python `set` objects that are only queried for membership and size are
  lists without duplicates (`insertTravelDate` is `set.add`).
* pandas dataframes are lists of records.  `groupby` keeps its pandas
  semantics: rows whose group key contains a null are dropped
  (`dropna = True`, the default), group keys are iterated in sorted order
  (`sort = True`, the default).
* Calendar-event titles are rendered f-strings in the source
  (`f"Travel to {p}"`, `f"Shooting in {p}"`, `f"Gap Day in {p}"`,
  `f"Travel back to {h}"`); they are embedded as the inductive
  `EventTitle`, one constructor per template, carrying the interpolated
  argument.  The `Description` field (another rendered string determined
  by the same data) and the `strftime` date formatting are rendering
  details and are not modelled; event dates are kept as day numbers.
-/

/-- A row of the `df_cast_dates` dataframe: one (cast member, shooting date)
record of the ingested schedule. -/
structure ShootingRecord where
  castMember : String
  shootingDate : Int
deriving DecidableEq

/-- One entry of the `shooting_periods` list: a named shooting period with a
location and an inclusive date range.  `none` for a date stands for a value
that failed to parse (or parsed to `NaT`), which `get_period_info` skips. -/
structure PeriodDef where
  name : String
  location : String
  startDate : Option Int
  endDate : Option Int
deriving DecidableEq

/-- One value of the `cast_member_settings` dict: the `include` flag
(field `includeFlag`, since `include` is a Lean keyword) and the
`home_location` string. -/
structure CastSetting where
  includeFlag : Bool
  homeLocation : String
deriving DecidableEq

/-- `pd.date_range start end` at day frequency: the inclusive integer range
from `s` to `e` (empty when `e < s`). -/
def dateRange (s e : Int) : List Int :=
  (List.range (e + 1 - s).toNat).map (fun i : Nat => s + (i : Int))

/-- pandas weekday of day number `d` (Monday = 0); day 0 is a Thursday. -/
def weekday (d : Int) : Int := (d + 3) % 7

/-- Python `str.lower()`: lower every character. -/
def strLower (s : String) : String := String.mk (s.data.map Char.toLower)

/-- `df.groupby('Cast Member')['Shooting Date'].shift(1)` at one row: the
shooting date of the nearest earlier row (last in `df`) with this cast
member, if any. -/
def prevShootingDate (df : List ShootingRecord) (member : String) : Option Int :=
  match df with
  | [] => none
  | r :: rs =>
    match prevShootingDate rs member with
    | some d => some d
    | none => if r.castMember = member then some r.shootingDate else none

/-- The `Gap` column: `(date - prev).days - 1`, with the `NaN` of a first
record replaced by `0` (`fillna(0)`).  Negative values are NOT clamped. -/
def gapValue (prev : Option Int) (date : Int) : Int :=
  match prev with
  | none => 0
  | some p => date - p - 1

/-- `weekends_in_gap(row)`: 0 when there is no previous date or the gap is
non-positive, else the number of Saturdays/Sundays strictly between the
previous and the current shooting date. -/
def weekends_in_gap (prev : Option Int) (gap : Int) (date : Int) : Nat :=
  match prev with
  | none => 0
  | some p =>
    if gap ≤ 0 then 0
    else ((dateRange (p + 1) (date - 1)).filter (fun d => decide (5 ≤ weekday d))).length

/-- A row of the dataframe returned by `calculate_gaps`. -/
structure GapRecord where
  castMember : String
  shootingDate : Int
  previousShootingDate : Option Int
  gap : Int
  weekendsInGap : Nat
deriving DecidableEq

/-- Placeholder record used only for out-of-range `getD` accesses. -/
def recDefault : ShootingRecord := ⟨"", 0⟩

/-- `calculate_gaps(df_cast_dates)`: annotate every row with the previous
shooting date of the same cast member, the gap, and the weekend days in the
gap. -/
def calculate_gaps (df : List ShootingRecord) : List GapRecord :=
  (List.range df.length).map fun i =>
    let r := df.getD i recDefault
    let prev := prevShootingDate (df.take i) r.castMember
    let gap := gapValue prev r.shootingDate
    ⟨r.castMember, r.shootingDate, prev, gap, weekends_in_gap prev gap r.shootingDate⟩

/-- `get_period_info(date)` inside `apply_user_logic`: scan the
`shooting_periods` list in order, skip entries whose dates did not parse,
and return name and location of the first period whose inclusive
`[Start Date, End Date]` range contains `date`; `(none, none)` if no period
matches. -/
def get_period_info (shooting_periods : List PeriodDef) (date : Int) :
    Option String × Option String :=
  match shooting_periods with
  | [] => (none, none)
  | p :: ps =>
    match p.startDate, p.endDate with
    | some s, some e =>
      if s ≤ date ∧ date ≤ e then (some p.name, some p.location)
      else get_period_info ps date
    | _, _ => get_period_info ps date

/-- Does this period definition have parsed dates whose inclusive range
contains `date`?  (The match condition of `get_period_info`.) -/
def matchesDef (p : PeriodDef) (date : Int) : Bool :=
  match p.startDate, p.endDate with
  | some s, some e => decide (s ≤ date ∧ date ≤ e)
  | _, _ => false

/-- `requires_travel(row)` inside `apply_user_logic`: false when the shooting
location is null, false when home and shooting location agree
case-insensitively, true otherwise. -/
def requiresTravelFn (home_location : String) (shooting_location : Option String) : Bool :=
  match shooting_location with
  | none => false
  | some loc => if strLower home_location = strLower loc then false else true

/-- A row of `df_filtered` after the period/location, home-location and
requires-travel columns have been attached. -/
structure Row where
  castMember : String
  shootingDate : Int
  periodName : Option String
  shootingLocation : Option String
  homeLocation : String
  requiresTravel : Bool
deriving DecidableEq

/-- The tuple `('Cast Member', 'Home Location', 'Period Name',
'Requires Travel')` used as the groupby key. -/
structure GroupKey where
  castMember : String
  homeLocation : String
  periodName : String
  requiresTravel : Bool
deriving DecidableEq

/-- The groupby key of a row; `none` when the `Period Name` entry is null, in
which case pandas `groupby` (with its default `dropna = True`) drops the row
from the iteration. -/
def rowKey (r : Row) : Option GroupKey :=
  match r.periodName with
  | none => none
  | some pn => some ⟨r.castMember, r.homeLocation, pn, r.requiresTravel⟩

/-- Lookup in the `cast_member_settings` dict (modelled as an association
list with distinct keys; first binding wins). -/
def lookupSetting (settings : List (String × CastSetting)) (name : String) :
    Option CastSetting :=
  match settings with
  | [] => none
  | (k, v) :: rest => if k = name then some v else lookupSetting rest name

/-- Sort order of `sort_values(['Cast Member', 'Shooting Date'])`. -/
def recLE (a b : ShootingRecord) : Bool :=
  match compare a.castMember b.castMember with
  | .lt => true
  | .gt => false
  | .eq => decide (a.shootingDate ≤ b.shootingDate)

/-- Insertion step of the record sort. -/
def insertRec (a : ShootingRecord) : List ShootingRecord → List ShootingRecord
  | [] => [a]
  | b :: l => if recLE a b then a :: b :: l else b :: insertRec a l

/-- `df.sort_values(['Cast Member', 'Shooting Date'])` (insertion sort). -/
def sortRecords : List ShootingRecord → List ShootingRecord
  | [] => []
  | a :: l => insertRec a (sortRecords l)

/-- Insertion step of the within-group date sort. -/
def insertRow (a : Row) : List Row → List Row
  | [] => [a]
  | b :: l => if a.shootingDate ≤ b.shootingDate then a :: b :: l else b :: insertRow a l

/-- `group.sort_values('Shooting Date')` (insertion sort). -/
def sortRowsByDate : List Row → List Row
  | [] => []
  | a :: l => insertRow a (sortRowsByDate l)

/-- Lexicographic order on group keys, matching the sorted iteration order of
pandas `groupby` (strings by code points, booleans with false before true). -/
def keyLE (a b : GroupKey) : Bool :=
  match compare a.castMember b.castMember with
  | .lt => true
  | .gt => false
  | .eq =>
    match compare a.homeLocation b.homeLocation with
    | .lt => true
    | .gt => false
    | .eq =>
      match compare a.periodName b.periodName with
      | .lt => true
      | .gt => false
      | .eq => !a.requiresTravel || b.requiresTravel

/-- Insertion step of the group-key sort. -/
def insertKey (a : GroupKey) : List GroupKey → List GroupKey
  | [] => [a]
  | b :: l => if keyLE a b then a :: b :: l else b :: insertKey a l

/-- Sort the group keys (pandas `groupby` iterates keys in sorted order). -/
def sortKeys : List GroupKey → List GroupKey
  | [] => []
  | a :: l => insertKey a (sortKeys l)

/-- Keep the first occurrence of every group key. -/
def dedupKeys : List GroupKey → List GroupKey :=
  go []
where
  go (seen : List GroupKey) : List GroupKey → List GroupKey
    | [] => []
    | k :: ks => if k ∈ seen then go seen ks else k :: go (k :: seen) ks

/-- `(group['Gap'] >= max_gap).cumsum()` followed by `groupby('New Period')`:
chunk a date-sorted list, starting a new chunk exactly at an element whose
gap to its predecessor (days strictly between the two dates) is `≥ max_gap`. -/
def splitPeriods {α : Type} (maxGap : Int) (dateOf : α → Int) : List α → List (List α)
  | [] => []
  | [x] => [[x]]
  | x :: y :: rest =>
    match splitPeriods maxGap dateOf (y :: rest) with
    | [] => [[x]]
    | c :: cs =>
      if maxGap ≤ dateOf y - dateOf x - 1 then [x] :: c :: cs
      else (x :: c) :: cs

/-- `pd.Series.min()` of a date column (0 on an empty column, unused). -/
def minDate : List Int → Int
  | [] => 0
  | d :: ds => ds.foldl min d

/-- `pd.Series.max()` of a date column (0 on an empty column, unused). -/
def maxDate : List Int → Int
  | [] => 0
  | d :: ds => ds.foldl max d

/-- `set.add` on the `travel_dates` set (modelled as a duplicate-free list). -/
def insertTravelDate (d : Int) (s : List Int) : List Int :=
  if d ∈ s then s else s ++ [d]

/-- The `arrival_option` parameter. -/
inductive ArrivalOption where
  | dayBeforeShooting
  | sameDayAsShooting
deriving DecidableEq

/-- The `departure_option` parameter. -/
inductive DepartureOption where
  | sameDayAsShooting
  | dayAfterShooting
deriving DecidableEq

/-- The quantities derived for one travel-requiring stay period inside
`apply_user_logic`. -/
structure TravelOut where
  arrivalDate : Int
  departureDate : Int
  travelDates : List Int
  periodTravel : Nat
  periodAccommodation : Int
  gapDates : List Int
deriving DecidableEq

/-- The travel branch of the per-period loop of `apply_user_logic`:
arrival/departure dates from the chosen policies, the deduplicating
`travel_dates` set, accommodation nights, and the gap dates strictly
between arrival and departure that are not shooting dates. -/
def processTravelPeriod (arrival_option : ArrivalOption)
    (departure_option : DepartureOption) (dates : List Int) : TravelOut :=
  let arrival_date :=
    match arrival_option with
    | .dayBeforeShooting => minDate dates - 1
    | .sameDayAsShooting => minDate dates
  let travel_dates := insertTravelDate arrival_date []
  let departure_date :=
    match departure_option with
    | .dayAfterShooting => maxDate dates + 1
    | .sameDayAsShooting => maxDate dates
  let travel_dates :=
    match departure_option with
    | .dayAfterShooting => insertTravelDate departure_date travel_dates
    | .sameDayAsShooting =>
      if departure_date ≠ arrival_date then insertTravelDate departure_date travel_dates
      else travel_dates
  let period_travel := travel_dates.length
  let period_accommodation := departure_date - arrival_date
  let full_date_range := dateRange (arrival_date + 1) (departure_date - 1)
  let gap_dates := full_date_range.filter (fun d => !decide (d ∈ dates))
  ⟨arrival_date, departure_date, travel_dates, period_travel, period_accommodation, gap_dates⟩

/-- The gap dates of the no-travel branch: the span from the first to the
last shooting date of the period, minus the shooting dates. -/
def nonTravelGapDates (dates : List Int) : List Int :=
  (dateRange (minDate dates) (maxDate dates)).filter (fun d => !decide (d ∈ dates))

/-- The four calendar-event title templates of the source, one constructor
per f-string, carrying the interpolated argument. -/
inductive EventTitle where
  | travelTo (location : String)
  | shootingIn (location : String)
  | gapDayIn (location : String)
  | travelBackTo (home : String)
deriving DecidableEq

/-- One entry of `calendar_data` (the `End` key is `stop`, since `end` is a
Lean keyword; the rendered `Description` string is not modelled). -/
structure CalendarEvent where
  castMember : String
  title : EventTitle
  start : Int
  stop : Int
  location : String
  allDay : Bool
deriving DecidableEq

/-- Is this one of the two travel event titles? -/
def isTravelTitle : EventTitle → Bool
  | .travelTo _ => true
  | .travelBackTo _ => true
  | .shootingIn _ => false
  | .gapDayIn _ => false

/-- The calendar events appended for one travel-requiring stay period, in
source order: travel-to, one per shooting date, one per gap date,
travel-back. -/
def travelPeriodEvents (name home_location period_name : String)
    (dates gap_dates : List Int) (arrival_date departure_date : Int) :
    List CalendarEvent :=
  ⟨name, .travelTo period_name, arrival_date, arrival_date, period_name, true⟩ ::
    (dates.map (fun d => ⟨name, .shootingIn period_name, d, d, period_name, true⟩) ++
      gap_dates.map (fun d => ⟨name, .gapDayIn period_name, d, d, period_name, true⟩) ++
      [⟨name, .travelBackTo home_location, departure_date, departure_date, home_location, true⟩])

/-- The calendar events appended for one stay period that requires no
travel: one per shooting date, then one per gap date. -/
def nonTravelPeriodEvents (name period_name : String) (dates gap_dates : List Int) :
    List CalendarEvent :=
  dates.map (fun d => ⟨name, .shootingIn period_name, d, d, period_name, true⟩) ++
    gap_dates.map (fun d => ⟨name, .gapDayIn period_name, d, d, period_name, true⟩)

/-- One entry of `export_data` (semantic fields; the two rendered date-range
and description strings are determined by `periodStartDate`/`periodEndDate`
and the name fields and are not modelled). -/
structure ExportRecord where
  castMember : String
  homeLocation : String
  periodName : String
  periodNumber : Nat
  periodStartDate : Int
  periodEndDate : Int
  periodTravelDays : Nat
  periodAccommodationNights : Int
  numberOfShootingDays : Nat
  numberOfGapDays : Nat
  numberOfTravelDays : Nat
  shootingDates : List Int
  x : Nat
  fourX : Nat
  requiresTravel : Bool
deriving DecidableEq

/-- One entry of the `results` list (a row of `df_summary`). -/
structure SummaryRow where
  castMember : String
  homeLocation : String
  travelDays : Nat
  accommodationNights : Int
  requiresTravel : Bool
deriving DecidableEq

/-- Accumulator of the per-period loop for one group. -/
structure GroupAcc where
  totalTravel : Nat
  totalAccommodation : Int
  exports : List ExportRecord
  events : List CalendarEvent

/-- The body of `for group_keys, group in df_filtered.groupby(...)`: sort the
group by date, chunk it into stay periods, run the per-period travel or
no-travel branch, and build the group's summary row.  `periodNumber` is the
cumsum value of the period's first row: `(0 >= max_gap)` for the first
period, increasing by one per split. -/
def processGroup (max_gap : Int) (arrival_option : ArrivalOption)
    (departure_option : DepartureOption) (key : GroupKey) (grows : List Row) :
    SummaryRow × List ExportRecord × List CalendarEvent :=
  let sortedG := sortRowsByDate grows
  let periods := splitPeriods max_gap Row.shootingDate sortedG
  let firstFlag : Nat := if max_gap ≤ 0 then 1 else 0
  let step := fun (acc : GroupAcc) (ip : Nat × List Row) =>
    let period_number := firstFlag + ip.1
    let period_group := ip.2
    let dates := period_group.map Row.shootingDate
    if key.requiresTravel then
      let t := processTravelPeriod arrival_option departure_option dates
      let exp : ExportRecord :=
        ⟨key.castMember, key.homeLocation,
          (if key.periodName = "" then "Local" else key.periodName), period_number,
          t.arrivalDate, t.departureDate, t.periodTravel, t.periodAccommodation,
          period_group.length, t.gapDates.length, t.periodTravel, dates, 1, 1,
          key.requiresTravel⟩
      ⟨acc.totalTravel + t.periodTravel,
        acc.totalAccommodation + t.periodAccommodation,
        acc.exports ++ [exp],
        acc.events ++ travelPeriodEvents key.castMember key.homeLocation
          key.periodName dates t.gapDates t.arrivalDate t.departureDate⟩
    else
      let gap_dates := nonTravelGapDates dates
      { acc with
        events := acc.events ++
          nonTravelPeriodEvents key.castMember key.periodName dates gap_dates }
  let acc := periods.enum.foldl step ⟨0, 0, [], []⟩
  (⟨key.castMember, key.homeLocation, acc.totalTravel, acc.totalAccommodation,
      key.requiresTravel⟩,
    acc.exports, acc.events)

/-- `apply_user_logic(df_cast_dates, max_gap, weekend_policy, arrival_option,
departure_option, cast_member_settings, shooting_periods)`: filter to cast
members present in the settings, sort, attach period/location, home location
and the include flag, keep included members, compute `Requires Travel`,
group by (member, home, period name, requires travel) — dropping rows with a
null period name, as pandas `groupby` does by default — and run the
per-group logic.  Returns `(df_summary, export_data, calendar_data)`.
`weekend_policy` is accepted and never used (the source's weekend block is
`pass`). -/
def apply_user_logic (df_cast_dates : List ShootingRecord) (max_gap : Int)
    (weekend_policy : Bool) (arrival_option : ArrivalOption)
    (departure_option : DepartureOption)
    (cast_member_settings : List (String × CastSetting))
    (shooting_periods : List PeriodDef) :
    List SummaryRow × List ExportRecord × List CalendarEvent :=
  let df_filtered := df_cast_dates.filter
    (fun r => (lookupSetting cast_member_settings r.castMember).isSome)
  let df_sorted := sortRecords df_filtered
  let rows := df_sorted.filterMap (fun r =>
    match lookupSetting cast_member_settings r.castMember with
    | none => none
    | some st =>
      let pi := get_period_info shooting_periods r.shootingDate
      if st.includeFlag then
        some ⟨r.castMember, r.shootingDate, pi.1, pi.2, st.homeLocation,
          requiresTravelFn st.homeLocation pi.2⟩
      else none)
  let keys := sortKeys (dedupKeys (rows.filterMap rowKey))
  let outs := keys.map (fun k =>
    processGroup max_gap arrival_option departure_option k
      (rows.filter (fun r =>
        match rowKey r with
        | some k2 => decide (k2 = k)
        | none => false)))
  (outs.map (fun o => o.1), (outs.map (fun o => o.2.1)).flatten,
    (outs.map (fun o => o.2.2)).flatten)

/-! ## Lemmas about `calculate_gaps` -/

/-- Placeholder gap record used only for out-of-range `getD` accesses. -/
def gapDefault : GapRecord := ⟨"", 0, none, 0, 0⟩

lemma prevShootingDate_eq_none {l : List ShootingRecord} {m : String}
    (h : ∀ r ∈ l, r.castMember ≠ m) : prevShootingDate l m = none := by
  induction l with
  | nil => rfl
  | cons r rs ih =>
    simp only [prevShootingDate]
    rw [ih (fun x hx => h x (List.mem_cons_of_mem _ hx))]
    simp [h r (List.mem_cons_self r rs)]

lemma prevShootingDate_append_single (l : List ShootingRecord) (r : ShootingRecord)
    (m : String) :
    prevShootingDate (l ++ [r]) m =
      if r.castMember = m then some r.shootingDate else prevShootingDate l m := by
  induction l with
  | nil => simp [prevShootingDate]
  | cons a l ih =>
    show (match prevShootingDate (l ++ [r]) m with
      | some d => some d
      | none => if a.castMember = m then some a.shootingDate else none) =
      if r.castMember = m then some r.shootingDate else prevShootingDate (a :: l) m
    rw [ih]
    by_cases hr : r.castMember = m
    · simp [hr]
    · rw [if_neg hr, if_neg hr]
      rfl

lemma calculate_gaps_getD (df : List ShootingRecord) (i : Nat) (h : i < df.length) :
    (calculate_gaps df).getD i gapDefault =
      ⟨(df.getD i recDefault).castMember, (df.getD i recDefault).shootingDate,
        prevShootingDate (df.take i) (df.getD i recDefault).castMember,
        gapValue (prevShootingDate (df.take i) (df.getD i recDefault).castMember)
          (df.getD i recDefault).shootingDate,
        weekends_in_gap (prevShootingDate (df.take i) (df.getD i recDefault).castMember)
          (gapValue (prevShootingDate (df.take i) (df.getD i recDefault).castMember)
            (df.getD i recDefault).shootingDate)
          (df.getD i recDefault).shootingDate⟩ := by
  unfold calculate_gaps
  rw [List.getD_eq_getElem?_getD, List.getElem?_map, List.getElem?_range h]
  rfl

/-- C2 counterexample: on the schedule `[("A", 5), ("A", 5)]` (two records of
the same person on the same date) `calculate_gaps` produces a record with a
negative `gap_days` (namely −1), so the claimed clamping to 0 does not
happen. -/
theorem calculate_gaps_negative_gap :
    ∃ gr ∈ calculate_gaps [⟨"A", 5⟩, ⟨"A", 5⟩], gr.gap < 0 := by decide

/-- C2 (amended): in the gap annotation, for every person the first record
has `gap_days = 0` (the undefined gap is replaced by 0); but for two
consecutive records of the same person on the same calendar date the raw
difference −1 is kept: `gap_days = -1`, not clamped to 0. -/
theorem calculate_gaps_first_zero_and_duplicate_neg_one (df : List ShootingRecord)
    (i : Nat) (h : i < df.length) :
    ((∀ r ∈ df.take i, r.castMember ≠ (df.getD i recDefault).castMember) →
      ((calculate_gaps df).getD i gapDefault).gap = 0) ∧
    (∀ h2 : i + 1 < df.length,
      (df.getD i recDefault).castMember = (df.getD (i + 1) recDefault).castMember →
      (df.getD i recDefault).shootingDate = (df.getD (i + 1) recDefault).shootingDate →
      ((calculate_gaps df).getD (i + 1) gapDefault).gap = -1) := by
  constructor
  · intro hfirst
    rw [calculate_gaps_getD df i h]
    simp only [prevShootingDate_eq_none hfirst, gapValue]
  · intro h2 hm hd
    rw [calculate_gaps_getD df (i + 1) h2]
    have htake : df.take (i + 1) = df.take i ++ [df[i]] :=
      (List.take_concat_get' df i h).symm
    have hgd : df.getD i recDefault = df[i] := by
      simp [List.getD_eq_getElem?_getD, List.getElem?_eq_getElem h]
    simp only [htake, prevShootingDate_append_single]
    rw [if_pos]
    · simp only [gapValue]
      have : (df[i]).shootingDate = (df.getD (i + 1) recDefault).shootingDate := by
        rw [← hgd]; exact hd
      omega
    · rw [← hgd]; exact hm

/-- Witness for C2 at the concrete schedule `[("A", 5), ("A", 5)]`: the first
record gets gap 0 and the duplicate-date second record gets gap −1. -/
theorem calculate_gaps_first_zero_and_duplicate_neg_one_witness :
    ((calculate_gaps [⟨"A", 5⟩, ⟨"A", 5⟩]).getD 0 gapDefault).gap = 0 ∧
    ((calculate_gaps [⟨"A", 5⟩, ⟨"A", 5⟩]).getD 1 gapDefault).gap = -1 :=
  ⟨(calculate_gaps_first_zero_and_duplicate_neg_one [⟨"A", 5⟩, ⟨"A", 5⟩] 0
      (by decide)).1 (by simp),
    (calculate_gaps_first_zero_and_duplicate_neg_one [⟨"A", 5⟩, ⟨"A", 5⟩] 0
      (by decide)).2 (by decide) rfl rfl⟩

/-! ## Lemmas about `get_period_info` -/

lemma get_period_info_cons_of_not_matches (p : PeriodDef) (ps : List PeriodDef)
    (date : Int) (h : matchesDef p date = false) :
    get_period_info (p :: ps) date = get_period_info ps date := by
  rcases hs : p.startDate with _ | s <;> rcases he : p.endDate with _ | e <;>
    simp_all [get_period_info, matchesDef]

lemma get_period_info_cons_of_matches (p : PeriodDef) (ps : List PeriodDef)
    (date : Int) (h : matchesDef p date = true) :
    get_period_info (p :: ps) date = (some p.name, some p.location) := by
  rcases hs : p.startDate with _ | s <;> rcases he : p.endDate with _ | e <;>
    simp_all [get_period_info, matchesDef]

/-- C4: `get_period_info` scans the shooting-period definitions in list
order; if no definition (with parsed dates) contains the date, the result is
`(none, none)`; and the first definition whose inclusive range contains the
date wins, whatever comes after it — in particular the earlier of two
overlapping definitions. -/
theorem get_period_info_first_match (date : Int) :
    (∀ ps : List PeriodDef, (∀ q ∈ ps, matchesDef q date = false) →
      get_period_info ps date = (none, none)) ∧
    (∀ (ps₁ : List PeriodDef) (p : PeriodDef) (ps₂ : List PeriodDef),
      matchesDef p date = true → (∀ q ∈ ps₁, matchesDef q date = false) →
      get_period_info (ps₁ ++ p :: ps₂) date = (some p.name, some p.location)) := by
  constructor
  · intro ps hps
    induction ps with
    | nil => rfl
    | cons q qs ih =>
      rw [get_period_info_cons_of_not_matches q qs date (hps q (List.mem_cons_self q qs))]
      exact ih (fun x hx => hps x (List.mem_cons_of_mem _ hx))
  · intro ps₁ p ps₂ hp hps₁
    induction ps₁ with
    | nil => exact get_period_info_cons_of_matches p ps₂ date hp
    | cons q qs ih =>
      rw [List.cons_append,
        get_period_info_cons_of_not_matches q _ date (hps₁ q (List.mem_cons_self q qs))]
      exact ih (fun x hx => hps₁ x (List.mem_cons_of_mem _ hx))

/-- Witness for C4: with a non-matching first definition and two overlapping
later ones, the earlier overlapping definition ("P") wins at date 5. -/
theorem get_period_info_first_match_witness :
    get_period_info [⟨"Q", "L1", some 10, some 20⟩, ⟨"P", "L2", some 0, some 9⟩,
      ⟨"R", "L3", some 0, some 9⟩] 5 = (some "P", some "L2") :=
  (get_period_info_first_match 5).2 [⟨"Q", "L1", some 10, some 20⟩]
    ⟨"P", "L2", some 0, some 9⟩ [⟨"R", "L3", some 0, some 9⟩] (by decide) (by decide)

/-- C1 (code bug): an included cast member whose shooting date matches no
shooting-period definition gets a null period and location and
`requires_travel = false`, but the pandas `groupby` (default
`dropna = True`) then silently drops the row: the whole pass returns empty
summary, export and calendar outputs with no marker of the dropped data. -/
theorem unmatched_period_record_silently_dropped :
    get_period_info [] 0 = (none, none) ∧
    requiresTravelFn "Home" (get_period_info [] 0).2 = false ∧
    apply_user_logic [⟨"A", 0⟩] 3 false ArrivalOption.dayBeforeShooting
      DepartureOption.dayAfterShooting [("A", ⟨true, "Home"⟩)] [] = ([], [], []) := by
  refine ⟨rfl, rfl, ?_⟩
  rfl

/-- C9: the `weekend_policy` flag is a no-op — the source guards only a
`pass` statement on it — so every output of `apply_user_logic` is identical
under `weekend_policy = true` and `weekend_policy = false`. -/
theorem weekend_policy_noop (df : List ShootingRecord) (mg : Int)
    (arr : ArrivalOption) (dep : DepartureOption)
    (settings : List (String × CastSetting)) (periods : List PeriodDef) :
    apply_user_logic df mg true arr dep settings periods =
      apply_user_logic df mg false arr dep settings periods := rfl

/-! ## Lemmas about the per-period travel derivation -/

lemma mem_dateRange {s e d : Int} : d ∈ dateRange s e ↔ s ≤ d ∧ d ≤ e := by
  simp only [dateRange, List.mem_map, List.mem_range]
  constructor
  · rintro ⟨i, hi, rfl⟩
    omega
  · rintro ⟨h1, h2⟩
    exact ⟨(d - s).toNat, by omega, by omega⟩

lemma dateRange_eq_nil {s e : Int} (h : e < s) : dateRange s e = [] := by
  rw [dateRange]
  have h0 : (e + 1 - s).toNat = 0 := by omega
  rw [h0]
  rfl

lemma foldl_min_le (l : List Int) (a : Int) : l.foldl min a ≤ a := by
  induction l generalizing a with
  | nil => simp
  | cons x l ih => exact le_trans (ih (min a x)) (min_le_left a x)

lemma le_foldl_max (l : List Int) (a : Int) : a ≤ l.foldl max a := by
  induction l generalizing a with
  | nil => simp
  | cons x l ih => exact le_trans (le_max_left a x) (ih (max a x))

lemma minDate_le_maxDate {l : List Int} (h : l ≠ []) : minDate l ≤ maxDate l := by
  cases l with
  | nil => exact absurd rfl h
  | cons d ds => exact le_trans (foldl_min_le ds d) (le_foldl_max ds d)

/-- C5: for a travel-requiring stay period, the arrival date is the minimum
shooting date minus one day under "Day Before Shooting" and the minimum
shooting date under "Same Day as Shooting"; the departure date is the
maximum shooting date plus one day under "Day After Shooting" and the
maximum shooting date under "Same Day as Shooting"; the deduplicating
travel-date set makes the travel-day count 1 when departure equals arrival
and 2 otherwise; in particular a single shooting date under both same-day
policies yields travel-day count 1. -/
theorem travel_dates_policy (arr : ArrivalOption) (dep : DepartureOption)
    (dates : List Int) (h : dates ≠ []) :
    (processTravelPeriod arr dep dates).arrivalDate =
      (match arr with
       | .dayBeforeShooting => minDate dates - 1
       | .sameDayAsShooting => minDate dates) ∧
    (processTravelPeriod arr dep dates).departureDate =
      (match dep with
       | .dayAfterShooting => maxDate dates + 1
       | .sameDayAsShooting => maxDate dates) ∧
    (processTravelPeriod arr dep dates).periodTravel =
      (if (processTravelPeriod arr dep dates).departureDate =
          (processTravelPeriod arr dep dates).arrivalDate then 1 else 2) ∧
    (∀ d : Int, dates = [d] → arr = .sameDayAsShooting → dep = .sameDayAsShooting →
      (processTravelPeriod arr dep dates).arrivalDate = d ∧
      (processTravelPeriod arr dep dates).departureDate = d ∧
      (processTravelPeriod arr dep dates).periodTravel = 1) := by
  refine ⟨?_, ?_, ?_, ?_⟩
  · cases arr <;> cases dep <;> rfl
  · cases arr <;> cases dep <;> rfl
  · cases arr <;> cases dep <;>
      simp only [processTravelPeriod, insertTravelDate, List.not_mem_nil,
        List.mem_singleton] <;>
      (repeat' split) <;> simp_all
  · rintro d rfl rfl rfl
    refine ⟨rfl, rfl, ?_⟩
    simp [processTravelPeriod, insertTravelDate, minDate, maxDate]

/-- Witness for C5: a single shooting date (day 5) under both same-day
policies gives arrival = departure = 5 and one travel day. -/
theorem travel_dates_policy_witness :
    (processTravelPeriod .sameDayAsShooting .sameDayAsShooting [5]).arrivalDate = 5 ∧
    (processTravelPeriod .sameDayAsShooting .sameDayAsShooting [5]).departureDate = 5 ∧
    (processTravelPeriod .sameDayAsShooting .sameDayAsShooting [5]).periodTravel = 1 :=
  (travel_dates_policy .sameDayAsShooting .sameDayAsShooting [5] (by decide)).2.2.2
    5 rfl rfl rfl

/-- C6: for every travel-requiring stay period, `accommodation_nights` is
exactly the day difference `departure_date - arrival_date`; it is never
negative, and it is zero exactly when arrival equals departure. -/
theorem accommodation_nights_spec (arr : ArrivalOption) (dep : DepartureOption)
    (dates : List Int) (h : dates ≠ []) :
    (processTravelPeriod arr dep dates).periodAccommodation =
      (processTravelPeriod arr dep dates).departureDate -
        (processTravelPeriod arr dep dates).arrivalDate ∧
    0 ≤ (processTravelPeriod arr dep dates).periodAccommodation ∧
    ((processTravelPeriod arr dep dates).periodAccommodation = 0 ↔
      (processTravelPeriod arr dep dates).arrivalDate =
        (processTravelPeriod arr dep dates).departureDate) := by
  have hmm := minDate_le_maxDate h
  cases arr <;> cases dep <;>
    exact ⟨rfl, by simp only [processTravelPeriod]; omega,
      by simp only [processTravelPeriod]; omega⟩

/-- Witness for C6 at the single date 3 with day-before arrival and
day-after departure: two accommodation nights, in particular at least 0. -/
theorem accommodation_nights_spec_witness :
    0 ≤ (processTravelPeriod .dayBeforeShooting .dayAfterShooting [3]).periodAccommodation ∧
    ((processTravelPeriod .dayBeforeShooting .dayAfterShooting [3]).periodAccommodation =
      (processTravelPeriod .dayBeforeShooting .dayAfterShooting [3]).departureDate -
        (processTravelPeriod .dayBeforeShooting .dayAfterShooting [3]).arrivalDate) :=
  ⟨(accommodation_nights_spec .dayBeforeShooting .dayAfterShooting [3] (by decide)).2.1,
    (accommodation_nights_spec .dayBeforeShooting .dayAfterShooting [3] (by decide)).1⟩

/-- C8: for a travel-requiring stay period, `gap_dates` is exactly the set
of calendar dates strictly between arrival and departure that are not
shooting dates of the period; for a period without travel, the gap dates
are taken over the inclusive span from the first to the last shooting date
(not extended by arrival/departure), again excluding shooting dates, and
such a period emits only Shooting and Gap calendar events. -/
theorem gap_dates_spec (arr : ArrivalOption) (dep : DepartureOption)
    (dates : List Int) (d : Int) :
    (d ∈ (processTravelPeriod arr dep dates).gapDates ↔
      ((processTravelPeriod arr dep dates).arrivalDate < d ∧
        d < (processTravelPeriod arr dep dates).departureDate ∧ d ∉ dates)) ∧
    (d ∈ nonTravelGapDates dates ↔
      (minDate dates ≤ d ∧ d ≤ maxDate dates ∧ d ∉ dates)) ∧
    (∀ (name pn : String) (gds : List Int) (e : CalendarEvent),
      e ∈ nonTravelPeriodEvents name pn dates gds →
      e.title = EventTitle.shootingIn pn ∨ e.title = EventTitle.gapDayIn pn) := by
  refine ⟨?_, ?_, ?_⟩
  · simp only [processTravelPeriod, List.mem_filter, mem_dateRange,
      Bool.not_eq_eq_eq_not, Bool.not_true, decide_eq_false_iff_not]
    constructor
    · rintro ⟨⟨h1, h2⟩, h3⟩
      exact ⟨by omega, by omega, h3⟩
    · rintro ⟨h1, h2, h3⟩
      exact ⟨⟨by omega, by omega⟩, h3⟩
  · simp only [nonTravelGapDates, List.mem_filter, mem_dateRange,
      Bool.not_eq_eq_eq_not, Bool.not_true, decide_eq_false_iff_not]
    tauto
  · intro name pn gds e he
    simp only [nonTravelPeriodEvents, List.mem_append, List.mem_map] at he
    rcases he with ⟨x, _, rfl⟩ | ⟨x, _, rfl⟩
    · exact Or.inl rfl
    · exact Or.inr rfl

/-- Witness for C8: with shooting dates 1 and 3, day-before arrival (day 0)
and day-after departure (day 4), the characterizations hold at day 2, and a
concrete no-travel shooting event has a Shooting/Gap title. -/
theorem gap_dates_spec_witness :
    (2 ∈ (processTravelPeriod .dayBeforeShooting .dayAfterShooting [1, 3]).gapDates ↔
      ((processTravelPeriod .dayBeforeShooting .dayAfterShooting [1, 3]).arrivalDate < 2 ∧
        2 < (processTravelPeriod .dayBeforeShooting .dayAfterShooting [1, 3]).departureDate ∧
        2 ∉ ([1, 3] : List Int))) ∧
    ((CalendarEvent.mk "A" (.shootingIn "P") 1 1 "P" true).title =
        EventTitle.shootingIn "P" ∨
      (CalendarEvent.mk "A" (.shootingIn "P") 1 1 "P" true).title =
        EventTitle.gapDayIn "P") :=
  ⟨(gap_dates_spec .dayBeforeShooting .dayAfterShooting [1, 3] 2).1,
    (gap_dates_spec .dayBeforeShooting .dayAfterShooting [1, 3] 2).2.2 "A" "P" []
      ⟨"A", .shootingIn "P", 1, 1, "P", true⟩ (by decide)⟩

/-- C7: `requires_travel` is true exactly for a non-null shooting location
whose lowercased form differs from the lowercased home location; when they
agree case-insensitively it is false, and the no-travel branch emits no
"Travel to"/"Travel back to" calendar events. -/
theorem requires_travel_characterization :
    (∀ (home : String) (loc : Option String),
      (requiresTravelFn home loc = true ↔
        ∃ s, loc = some s ∧ strLower home ≠ strLower s)) ∧
    (∀ home s : String, strLower home = strLower s →
      requiresTravelFn home (some s) = false) ∧
    (∀ (name pn : String) (dates gds : List Int) (e : CalendarEvent),
      e ∈ nonTravelPeriodEvents name pn dates gds → isTravelTitle e.title = false) := by
  refine ⟨?_, ?_, ?_⟩
  · intro home loc
    cases loc with
    | none => simp [requiresTravelFn]
    | some s =>
      by_cases hs : strLower home = strLower s <;> simp [requiresTravelFn, hs]
  · intro home s hs
    simp [requiresTravelFn, hs]
  · intro name pn dates gds e he
    simp only [nonTravelPeriodEvents, List.mem_append, List.mem_map] at he
    rcases he with ⟨x, _, rfl⟩ | ⟨x, _, rfl⟩ <;> rfl

/-- Witness for C7: a differing location ("away" vs home "home") requires
travel, an equal-up-to-case location ("Home") does not, and a concrete
no-travel event has a non-travel title. -/
theorem requires_travel_characterization_witness :
    requiresTravelFn "home" (some "away") = true ∧
    requiresTravelFn "home" (some "Home") = false ∧
    isTravelTitle (CalendarEvent.mk "A" (.gapDayIn "P") 2 2 "P" true).title = false :=
  ⟨(requires_travel_characterization.1 "home" (some "away")).mpr
      ⟨"away", rfl, by decide⟩,
    requires_travel_characterization.2.1 "home" "Home" (by decide),
    requires_travel_characterization.2.2 "A" "P" [] [2]
      ⟨"A", .gapDayIn "P", 2, 2, "P", true⟩ (by decide)⟩

/-- C10: a travel-requiring stay period with a single shooting date under
both same-day policies has arrival = departure and a travel-day count of 1,
yet its calendar events still contain both a "Travel to" event and a
"Travel back to" event on that date — exactly two travel events. -/
theorem same_day_period_two_travel_events (name home pn : String) (d : Int) :
    (processTravelPeriod .sameDayAsShooting .sameDayAsShooting [d]).periodTravel = 1 ∧
    (processTravelPeriod .sameDayAsShooting .sameDayAsShooting [d]).arrivalDate =
      (processTravelPeriod .sameDayAsShooting .sameDayAsShooting [d]).departureDate ∧
    (CalendarEvent.mk name (.travelTo pn) d d pn true) ∈
      travelPeriodEvents name home pn [d]
        (processTravelPeriod .sameDayAsShooting .sameDayAsShooting [d]).gapDates d d ∧
    (CalendarEvent.mk name (.travelBackTo home) d d home true) ∈
      travelPeriodEvents name home pn [d]
        (processTravelPeriod .sameDayAsShooting .sameDayAsShooting [d]).gapDates d d ∧
    (travelPeriodEvents name home pn [d]
        (processTravelPeriod .sameDayAsShooting .sameDayAsShooting [d]).gapDates d d).countP
      (fun e => isTravelTitle e.title) = 2 := by
  have hpp : processTravelPeriod .sameDayAsShooting .sameDayAsShooting [d] =
      ⟨d, d, [d], 1, 0, []⟩ := by
    have h0 : dateRange (d + 1) (d - 1) = [] := dateRange_eq_nil (by omega)
    simp [processTravelPeriod, minDate, maxDate, insertTravelDate, h0]
  rw [hpp]
  refine ⟨rfl, rfl, ?_, ?_, ?_⟩
  · simp [travelPeriodEvents]
  · simp [travelPeriodEvents]
  · simp [travelPeriodEvents, List.countP_cons, List.countP_append, isTravelTitle]

/-! ## Lemmas about `splitPeriods` -/

lemma splitPeriods_cons_cons {α : Type} (maxGap : Int) (dateOf : α → Int)
    (x y : α) (rest : List α) (c : List α) (cs : List (List α))
    (h : splitPeriods maxGap dateOf (y :: rest) = c :: cs) :
    splitPeriods maxGap dateOf (x :: y :: rest) =
      if maxGap ≤ dateOf y - dateOf x - 1 then [x] :: c :: cs
      else (x :: c) :: cs := by
  show (match splitPeriods maxGap dateOf (y :: rest) with
    | [] => [[x]]
    | c :: cs =>
      if maxGap ≤ dateOf y - dateOf x - 1 then [x] :: c :: cs
      else (x :: c) :: cs) = _
  rw [h]

lemma splitPeriods_first {α : Type} (maxGap : Int) (dateOf : α → Int)
    (y : α) (rest : List α) :
    ∃ t cs, splitPeriods maxGap dateOf (y :: rest) = (y :: t) :: cs := by
  induction rest generalizing y with
  | nil => exact ⟨[], [], rfl⟩
  | cons z rest ih =>
    obtain ⟨t, cs, h⟩ := ih z
    rw [splitPeriods_cons_cons maxGap dateOf y z rest _ _ h]
    by_cases hg : maxGap ≤ dateOf z - dateOf y - 1
    · exact ⟨[], (z :: t) :: cs, by rw [if_pos hg]⟩
    · exact ⟨z :: t, cs, by rw [if_neg hg]⟩

lemma splitPeriods_flatten {α : Type} (maxGap : Int) (dateOf : α → Int)
    (rows : List α) :
    (splitPeriods maxGap dateOf rows).flatten = rows := by
  induction rows with
  | nil => rfl
  | cons x xs ih =>
    cases xs with
    | nil => rfl
    | cons y rest =>
      obtain ⟨t, cs, h⟩ := splitPeriods_first maxGap dateOf y rest
      rw [splitPeriods_cons_cons maxGap dateOf x y rest _ _ h]
      rw [h] at ih
      by_cases hg : maxGap ≤ dateOf y - dateOf x - 1
      · rw [if_pos hg]
        simpa using ih
      · rw [if_neg hg]
        simpa using ih

lemma splitPeriods_ne_nil {α : Type} (maxGap : Int) (dateOf : α → Int)
    (rows : List α) :
    ∀ c ∈ splitPeriods maxGap dateOf rows, c ≠ [] := by
  induction rows with
  | nil => intro c hc; cases hc
  | cons x xs ih =>
    cases xs with
    | nil =>
      intro c hc
      rcases List.mem_singleton.mp hc with rfl
      exact List.cons_ne_nil x []
    | cons y rest =>
      obtain ⟨t, cs, h⟩ := splitPeriods_first maxGap dateOf y rest
      rw [splitPeriods_cons_cons maxGap dateOf x y rest _ _ h]
      rw [h] at ih
      intro c hc
      by_cases hg : maxGap ≤ dateOf y - dateOf x - 1
      · rw [if_pos hg] at hc
        rcases List.mem_cons.mp hc with rfl | hc'
        · exact List.cons_ne_nil x []
        · exact ih c hc'
      · rw [if_neg hg] at hc
        rcases List.mem_cons.mp hc with rfl | hc'
        · exact List.cons_ne_nil x (y :: t)
        · exact ih c (List.mem_cons_of_mem _ hc')

lemma splitPeriods_chain_internal {α : Type} (maxGap : Int) (dateOf : α → Int)
    (rows : List α) :
    ∀ c ∈ splitPeriods maxGap dateOf rows,
      List.Chain' (fun a b => dateOf b - dateOf a - 1 < maxGap) c := by
  induction rows with
  | nil => intro c hc; cases hc
  | cons x xs ih =>
    cases xs with
    | nil =>
      intro c hc
      rcases List.mem_singleton.mp hc with rfl
      exact List.chain'_singleton x
    | cons y rest =>
      obtain ⟨t, cs, h⟩ := splitPeriods_first maxGap dateOf y rest
      rw [splitPeriods_cons_cons maxGap dateOf x y rest _ _ h]
      rw [h] at ih
      intro c hc
      by_cases hg : maxGap ≤ dateOf y - dateOf x - 1
      · rw [if_pos hg] at hc
        rcases List.mem_cons.mp hc with rfl | hc'
        · exact List.chain'_singleton x
        · exact ih c hc'
      · rw [if_neg hg] at hc
        rcases List.mem_cons.mp hc with rfl | hc'
        · exact List.chain'_cons.mpr
            ⟨by omega, ih (y :: t) (List.mem_cons_self _ _)⟩
        · exact ih c (List.mem_cons_of_mem _ hc')

lemma splitPeriods_chain_boundary {α : Type} (maxGap : Int) (dateOf : α → Int)
    (rows : List α) :
    List.Chain' (fun c c' => ∀ a b, c.getLast? = some a → c'.head? = some b →
      maxGap ≤ dateOf b - dateOf a - 1) (splitPeriods maxGap dateOf rows) := by
  induction rows with
  | nil => exact List.chain'_nil
  | cons x xs ih =>
    cases xs with
    | nil => exact List.chain'_singleton [x]
    | cons y rest =>
      obtain ⟨t, cs, h⟩ := splitPeriods_first maxGap dateOf y rest
      rw [splitPeriods_cons_cons maxGap dateOf x y rest _ _ h]
      rw [h] at ih
      by_cases hg : maxGap ≤ dateOf y - dateOf x - 1
      · rw [if_pos hg]
        refine List.chain'_cons.mpr ⟨?_, ih⟩
        intro a b ha hb
        have ha' : x = a := by simpa using ha
        have hb' : y = b := by simpa using hb
        rw [← ha', ← hb']
        exact hg
      · rw [if_neg hg]
        cases cs with
        | nil => exact List.chain'_singleton _
        | cons c2 cs2 =>
          have hch := List.chain'_cons.mp ih
          refine List.chain'_cons.mpr ⟨?_, hch.2⟩
          intro a b ha hb
          exact hch.1 a b ha hb

lemma splitPeriods_singletons {α : Type} (dateOf : α → Int) (rows : List α) :
    List.Chain' (fun a b => dateOf a < dateOf b) rows →
    ∀ c ∈ splitPeriods 0 dateOf rows, c.length = 1 := by
  induction rows with
  | nil => intro _ c hc; cases hc
  | cons x xs ih =>
    cases xs with
    | nil =>
      intro _ c hc
      rcases List.mem_singleton.mp hc with rfl
      rfl
    | cons y rest =>
      intro hsorted c hc
      have hxy : dateOf x < dateOf y := (List.chain'_cons.mp hsorted).1
      have htail := (List.chain'_cons.mp hsorted).2
      obtain ⟨t, cs, h⟩ := splitPeriods_first 0 dateOf y rest
      rw [splitPeriods_cons_cons 0 dateOf x y rest _ _ h] at hc
      have hg : (0 : Int) ≤ dateOf y - dateOf x - 1 := by omega
      rw [if_pos hg] at hc
      rcases List.mem_cons.mp hc with rfl | hc'
      · rfl
      · exact ih htail c (by rw [h]; exact hc')

/-- C3: within a group, `splitPeriods` partitions the date-sorted records
into stay periods without dropping or reordering anything (the chunks
flatten back to the group); every chunk is nonempty; no gap inside a chunk
reaches the threshold; the gap across every chunk boundary is ≥ the
threshold (so a new period starts exactly at records whose gap is
≥ `max_gap`); and with threshold 0 and strictly increasing dates every
record is its own period. -/
theorem stay_period_split_spec (maxGap : Int) (rows : List Row) :
    (splitPeriods maxGap Row.shootingDate rows).flatten = rows ∧
    (∀ c ∈ splitPeriods maxGap Row.shootingDate rows, c ≠ []) ∧
    (∀ c ∈ splitPeriods maxGap Row.shootingDate rows,
      List.Chain' (fun a b => b.shootingDate - a.shootingDate - 1 < maxGap) c) ∧
    List.Chain' (fun c c' => ∀ a b, c.getLast? = some a → c'.head? = some b →
      maxGap ≤ b.shootingDate - a.shootingDate - 1)
      (splitPeriods maxGap Row.shootingDate rows) ∧
    (maxGap = 0 →
      List.Chain' (fun a b : Row => a.shootingDate < b.shootingDate) rows →
      ∀ c ∈ splitPeriods maxGap Row.shootingDate rows, c.length = 1) := by
  refine ⟨splitPeriods_flatten maxGap Row.shootingDate rows,
    splitPeriods_ne_nil maxGap Row.shootingDate rows,
    splitPeriods_chain_internal maxGap Row.shootingDate rows,
    splitPeriods_chain_boundary maxGap Row.shootingDate rows, ?_⟩
  intro h hs
  subst h
  exact splitPeriods_singletons Row.shootingDate rows hs

/-- Witness for C3 at two concrete rows with dates 1 and 2 and threshold 0:
the chunks flatten back to the rows and the chunk containing the first row
is a singleton. -/
theorem stay_period_split_spec_witness :
    (splitPeriods 0 Row.shootingDate
      [⟨"A", 1, some "P", some "L", "H", true⟩,
        ⟨"A", 2, some "P", some "L", "H", true⟩]).flatten =
      [⟨"A", 1, some "P", some "L", "H", true⟩,
        ⟨"A", 2, some "P", some "L", "H", true⟩] ∧
    ([⟨"A", 1, some "P", some "L", "H", true⟩] : List Row).length = 1 :=
  ⟨(stay_period_split_spec 0
      [⟨"A", 1, some "P", some "L", "H", true⟩,
        ⟨"A", 2, some "P", some "L", "H", true⟩]).1,
    (stay_period_split_spec 0
      [⟨"A", 1, some "P", some "L", "H", true⟩,
        ⟨"A", 2, some "P", some "L", "H", true⟩]).2.2.2.2 rfl
      (List.chain'_cons.mpr ⟨by decide, List.chain'_singleton _⟩)
      [⟨"A", 1, some "P", some "L", "H", true⟩] (by decide)⟩
